import Mathlib

/-!
Verification of the open_board sound-board application against its
natural-language specification.

The development is a shallow embedding of the Python sources:

* `engine/infrastructure/widgets.py` — the stream resolver
  (`resolve_youtube`), the per-sound player widget (`SoundPlayer`) with
  its fade state machine, and the section widget (`SoundSection`);
* `engine/domain/sound.py` — the `Sound` value object;
* `engine/infrastructure/repositories.py` — the playback backend adapter
  (`QtSoundRepository`);
* `engine/infrastructure/windows.py` and `main.py` /
  `music_board_app.py` — window construction and the entry points.

Pure computations are translated to Lean functions; stateful widget and
repository code is translated to explicit state passing, with backend
side effects (service calls) recorded as explicit action traces.
Machine-level concerns (Qt event delivery, real timers, audio output)
are out of scope; the embedding models the state transitions the Python
code performs on each call.
-/

namespace OpenBoard

/-! ## Stream resolver (`resolve_youtube` in widgets.py)

The Python function builds a `pytube.YouTube` object for the given URL
and selects an audio stream from its `streams` query:

    yt = YouTube(url)
    stream = (yt.streams
        .filter(only_audio=True, mime_type="audio/mp4")
        .order_by("abr").desc().first())
    if stream is None:
        stream = yt.streams.filter(only_audio=True).order_by("abr").desc().first()
    if stream is None:
        raise ValueError("No audio stream found")
    return stream.url, yt.title

A pytube stream is modelled by its attributes used here; `abr` (average
bitrate) is a natural number.  `order_by` is a stable ascending sort,
`desc` reverses, `first` takes the head of the list.
-/

/-- Attributes of a pytube stream object that `resolve_youtube` reads. -/
structure Stream where
  url : String
  mime_type : String
  audioOnly : Bool
  abr : Nat
deriving DecidableEq, Repr

/-- Attributes of a pytube `YouTube` object that `resolve_youtube` reads. -/
structure YouTube where
  streams : List Stream
  title : String
deriving DecidableEq, Repr

/-- Errors `resolve_youtube` can raise: an exception escaping the
client call (network / HTTP-layer), or the explicit
`ValueError("No audio stream found")`. -/
inductive ResolveError where
  | clientError (msg : String)
  | valueError (msg : String)
deriving DecidableEq, Repr

/-- Comparison of streams by the `abr` attribute, the sort key of
`order_by("abr")`. -/
def abrLE (a b : Stream) : Prop := a.abr ≤ b.abr

instance : DecidableRel abrLE := fun a b => inferInstanceAs (Decidable (a.abr ≤ b.abr))

instance : IsTotal Stream abrLE := ⟨fun a b => Nat.le_total a.abr b.abr⟩

instance : IsTrans Stream abrLE := ⟨fun _ _ _ h1 h2 => Nat.le_trans h1 h2⟩

/-- pytube `StreamQuery.filter(only_audio=..., mime_type=...)`:
keep streams that are audio-only (when requested) and whose mime type
matches (when a mime type is given). -/
def filterStreams (ss : List Stream) (only_audio : Bool) (mime_type : Option String) :
    List Stream :=
  ss.filter fun s =>
    (!only_audio || s.audioOnly) &&
    (match mime_type with
     | none => true
     | some m => s.mime_type == m)

/-- pytube `StreamQuery.order_by("abr")`: stable ascending sort by
bitrate. -/
def order_by_abr (ss : List Stream) : List Stream :=
  List.insertionSort abrLE ss

/-- pytube `StreamQuery.desc()`: reverse the ordered list. -/
def descStreams (ss : List Stream) : List Stream := ss.reverse

/-- pytube `StreamQuery.first()`: head of the list, or `none`. -/
def firstStream (ss : List Stream) : Option Stream := ss.head?

/-- Embedding of `resolve_youtube` (widgets.py, lines 39-55).

The pytube client (`YouTube(url)` constructor) is a parameter: it takes
the number of client calls already made during this invocation and the
URL argument, and either returns a `YouTube` object or raises.  The
second component of the result records the URL argument of every client
call made, in order — the source performs exactly one client call, with
the caller's URL passed through verbatim (no URL rewriting appears in
the function body), and has no retry loop: an exception from the single
client call propagates immediately. -/
def resolve_youtube (client : Nat → String → Except String YouTube) (url : String) :
    Except ResolveError (String × String) × List String :=
  match client 0 url with
  | .error e => (.error (.clientError e), [url])
  | .ok yt =>
    match firstStream (descStreams (order_by_abr
        (filterStreams yt.streams true (some "audio/mp4")))) with
    | some s => (.ok (s.url, yt.title), [url])
    | none =>
      match firstStream (descStreams (order_by_abr
          (filterStreams yt.streams true none))) with
      | some s => (.ok (s.url, yt.title), [url])
      | none => (.error (.valueError "No audio stream found"), [url])

/-- Audio-only stream of the preferred container type (`audio/mp4`). -/
def isPreferredStream (s : Stream) : Bool :=
  s.audioOnly && (s.mime_type == "audio/mp4")

/-- Audio-only stream of any container type. -/
def isAudioOnlyStream (s : Stream) : Bool := s.audioOnly

/-- Result of resolving against a client that succeeds with a fixed
stream list — isolates the stream-selection logic of
`resolve_youtube`. -/
def resolveWithStreams (streams : List Stream) (title : String) (url : String) :
    Except ResolveError (String × String) :=
  (resolve_youtube (fun _ _ => .ok ⟨streams, title⟩) url).1

/-- Client whose first two calls raise an HTTP-layer error and whose
third call succeeds — the scenario of the repository's own retry test
(`tests/test_youtube_client_fallback.py`). -/
def flakyClient : Nat → String → Except String YouTube := fun n _ =>
  if n < 2 then .error "HTTP Error 400: Bad Request"
  else .ok ⟨[⟨"stream", "audio/mp4", true, 128⟩], "title"⟩

/-- Client that raises an error carrying its URL argument — the spy
client of the repository's URL-normalization tests
(`tests/test_youtube_url_normalization.py`), which asserts on the URL
the client received. -/
def echoClient : Nat → String → Except String YouTube := fun _ u => .error u

/-- The two streams of the repository's format-preference test
(`tests/test_youtube_stream_resolution.py`): a higher-bitrate
`audio/webm` stream and a lower-bitrate `audio/mp4` stream. -/
def demoStreams : List Stream :=
  [⟨"webm_url", "audio/webm", true, 160⟩, ⟨"mp4_url", "audio/mp4", true, 128⟩]

/-! ## Sound value object (`engine/domain/sound.py`)

    @dataclass(eq=False)
    class Sound:
        path: Union[Path, str]
        loop: bool = False
        def __hash__(self): return hash(str(self.path))
        def __eq__(self, other):
            if not isinstance(other, Sound): return NotImplemented
            return str(self.path) == str(other.path)

Both `Path` and `str` sources are compared and hashed through their
string form, so `path` is modelled as that string form. -/

/-- The `Sound` value object: a source reference (string form of the
path or URL) and a loop flag. -/
structure Sound where
  path : String
  loop : Bool
deriving Repr

/-- `Sound.__eq__`: equality by the string form of the source reference
only. -/
def Sound.beq (a b : Sound) : Bool := a.path == b.path

/-- `Sound.__hash__`: hash of the string form of the source reference
only. -/
def Sound.hashKey (a : Sound) : UInt64 := hash a.path

/-- Lookup in an association list keyed by `Sound` values using
`Sound.__eq__`, the way Python dict lookup behaves for keys with equal
hashes — models the `Dict[Sound, ...]` session maps of the backend. -/
def lookupSound {α : Type} (m : List (Sound × α)) (k : Sound) : Option α :=
  match m with
  | [] => none
  | (k', v) :: rest => if Sound.beq k' k then some v else lookupSound rest k

/-! ## Playback backend adapter (`QtSoundRepository`, repositories.py)

The adapter keeps one `QMediaPlayer`/`QAudioOutput` pair per sound
identity, a per-sound volume map, and a master volume:

    self._players: Dict[Sound, QMediaPlayer] = {}
    self._outputs: Dict[Sound, QAudioOutput] = {}
    self._volumes: Dict[Sound, float] = {}
    self._master_volume: float = 1.0

The dictionaries are keyed by `Sound`, whose equality and hash are by
the string form of the path only (sound.py), so they behave exactly as
maps keyed by that string; the embedding keys the session state by the
identity string.  Volumes are exact rationals.  The value last applied
to a session's `QAudioOutput.setVolume` is recorded in `outputs`.
Dictionary writes are modelled by prepending (lookup returns the most
recent binding). -/

/-- State of a `QtSoundRepository`. -/
structure QtSoundRepository where
  players : List String
  volumes : List (String × ℚ)
  outputs : List (String × ℚ)
  master_volume : ℚ
deriving Repr

/-- Association-list lookup for the string-keyed dictionaries. -/
def lookupQ (m : List (String × ℚ)) (k : String) : Option ℚ :=
  match m with
  | [] => none
  | (k', v) :: rest => if k' = k then some v else lookupQ rest k

/-- `self._volumes.get(sound, 1.0)` — per-sound volume with default 1. -/
def QtSoundRepository.volumeOf (st : QtSoundRepository) (s : String) : ℚ :=
  (lookupQ st.volumes s).getD 1

/-- Fresh repository: `__init__` — empty session maps, master volume 1. -/
def QtSoundRepository.init : QtSoundRepository := ⟨[], [], [], 1⟩

/-- `_apply_volume`: if the session exists, set the session's output
volume to per-sound volume times master volume; otherwise return (the
method bails out when player or output is missing). -/
def QtSoundRepository.apply_volume (st : QtSoundRepository) (s : String) :
    QtSoundRepository :=
  if s ∈ st.players then
    { st with outputs := (s, st.volumeOf s * st.master_volume) :: st.outputs }
  else st

/-- `_ensure_player`: create the media player and audio output for a new
identity and `setdefault` its volume to 1; reuse an existing session. -/
def QtSoundRepository.ensure_player (st : QtSoundRepository) (s : String) :
    QtSoundRepository :=
  if s ∈ st.players then st
  else
    { st with
      players := s :: st.players
      volumes :=
        match lookupQ st.volumes s with
        | none => (s, 1) :: st.volumes
        | some _ => st.volumes }

/-- `play`: ensure the session exists, apply its volume, start playback
(the `player.play()` call itself touches no adapter state). -/
def QtSoundRepository.play (st : QtSoundRepository) (s : Sound) : QtSoundRepository :=
  (st.ensure_player s.path).apply_volume s.path

/-- `set_volume`: record the per-sound volume, then re-apply. -/
def QtSoundRepository.set_volume (st : QtSoundRepository) (s : Sound) (v : ℚ) :
    QtSoundRepository :=
  QtSoundRepository.apply_volume { st with volumes := (s.path, v) :: st.volumes } s.path

/-- Fold `_apply_volume` over a list of identities. -/
def QtSoundRepository.applyAll (st : QtSoundRepository) (ss : List String) :
    QtSoundRepository :=
  ss.foldl QtSoundRepository.apply_volume st

/-- `set_master_volume`: record the master volume, then re-apply the
volume of every live session. -/
def QtSoundRepository.set_master_volume (st : QtSoundRepository) (v : ℚ) :
    QtSoundRepository :=
  QtSoundRepository.applyAll { st with master_volume := v }
    ({ st with master_volume := v }).players

/-- The volume-affecting operations of the adapter named by the claim. -/
inductive RepoOp where
  | play (s : Sound)
  | set_volume (s : Sound) (v : ℚ)
  | set_master_volume (v : ℚ)
deriving Repr

/-- One adapter operation. -/
def RepoOp.step (st : QtSoundRepository) : RepoOp → QtSoundRepository
  | .play s => st.play s
  | .set_volume s v => st.set_volume s v
  | .set_master_volume v => st.set_master_volume v

/-- Run a sequence of adapter operations from the fresh state. -/
def runRepo (ops : List RepoOp) : QtSoundRepository :=
  ops.foldl RepoOp.step QtSoundRepository.init

/-- Invariant: the output gain applied to every live session equals that
sound's per-sound gain times the master gain. -/
def GainInvariant (st : QtSoundRepository) : Prop :=
  ∀ s ∈ st.players, lookupQ st.outputs s = some (st.volumeOf s * st.master_volume)

/-- An operation whose gain arguments lie in `[0, 1]` (slider and master
values are percentages of at most 100). -/
def RepoOp.bounded : RepoOp → Prop
  | .play _ => True
  | .set_volume _ v => 0 ≤ v ∧ v ≤ 1
  | .set_master_volume v => 0 ≤ v ∧ v ≤ 1

/-- Auxiliary invariant: every recorded per-sound volume and the master
volume lie in `[0, 1]`. -/
def VolsBounded (st : QtSoundRepository) : Prop :=
  (∀ kv ∈ st.volumes, 0 ≤ kv.2 ∧ kv.2 ≤ 1) ∧
    0 ≤ st.master_volume ∧ st.master_volume ≤ 1

/-! ## Player widget fade state machine (`SoundPlayer`, widgets.py)

The widget drives volume ramps with a 100 ms `QTimer`; the fade fields

    self._fade_timer, self._fade_start, self._fade_end,
    self._fade_elapsed, self._fade_callback

are modelled as an optional `FadeState` (present exactly when the timer
is active; `_stop_fade` clears both the timer and the callback).  The
calls the widget makes into the `AudioService` are recorded as a trace
of actions; each transition returns the new widget state and the trace
of the service calls it performed, in order.  `pause_sound` backed by
the repository halts without resetting position; `stop_sound` halts and
resets position. -/

/-- One `AudioService` call performed by the widget. -/
inductive PAction where
  | playSound
  | pauseSound
  | stopSound
  | setVolume (v : ℚ)
  | setPosition (p : Int)
deriving DecidableEq, Repr

/-- Active fade: start gain, end gain, elapsed milliseconds, and the
optional completion callback (the service calls the callback performs
when the fade completes). -/
structure FadeState where
  fade_start : ℚ
  fade_end : ℚ
  fade_elapsed : Nat
  callback : Option (List PAction)
deriving DecidableEq, Repr

/-- The gain of a fade at its current elapsed time:
start + (end - start) * min(elapsed / 3000, 1). -/
def FadeState.currentValue (f : FadeState) : ℚ :=
  f.fade_start + (f.fade_end - f.fade_start) * min ((f.fade_elapsed : ℚ) / 3000) 1

/-- State of a `SoundPlayer` widget relevant to playback and fading:
loop and stream flags, the volume slider value (0-100), whether a sound
and a service are bound, and the fade state. -/
structure SoundPlayer where
  loopMode : Bool
  isStream : Bool
  slider : Nat
  hasSound : Bool
  hasService : Bool
  fade : Option FadeState
deriving DecidableEq, Repr

/-- `_stop_fade`: stop and drop the fade timer and clear the callback. -/
def SoundPlayer.stop_fade (st : SoundPlayer) : SoundPlayer :=
  { st with fade := none }

/-- `_start_fade(start, end, callback)`: cancel any fade in progress,
install a fresh fade with elapsed 0, and set the volume to the start
gain.  Does nothing without a bound sound and service. -/
def SoundPlayer.start_fade (st : SoundPlayer) (a b : ℚ)
    (cb : Option (List PAction)) : SoundPlayer × List PAction :=
  if st.hasSound ∧ st.hasService then
    ({ st.stop_fade with fade := some ⟨a, b, 0, cb⟩ }, [.setVolume a])
  else (st, [])

/-- `_fade_step`: one 100 ms timer tick.  Advance elapsed time, set the
interpolated volume, and on completion stop the fade and run the saved
callback. -/
def SoundPlayer.fade_step (st : SoundPlayer) : SoundPlayer × List PAction :=
  match st.fade with
  | none => (st, [])
  | some f =>
    if st.hasSound ∧ st.hasService then
      let e := f.fade_elapsed + 100
      let frac : ℚ := min ((e : ℚ) / 3000) 1
      let vol := f.fade_start + (f.fade_end - f.fade_start) * frac
      if 1 ≤ frac then
        (st.stop_fade, [.setVolume vol] ++ f.callback.getD [])
      else
        ({ st with fade := some { f with fade_elapsed := e } }, [.setVolume vol])
    else (st, [])

/-- `_pause`: read the position, compute the current gain (the
interpolated value of the fade in progress if the timer is active,
otherwise the slider value), and fade from it to 0 with a completion
callback that pauses the sound and restores the position.  `pos` is the
position the service reports at the time of the call. -/
def SoundPlayer.pause (st : SoundPlayer) (pos : Int) : SoundPlayer × List PAction :=
  if st.hasSound ∧ st.hasService then
    let current : ℚ :=
      match st.fade with
      | some f =>
        f.fade_start + (f.fade_end - f.fade_start) * min ((f.fade_elapsed : ℚ) / 3000) 1
      | none => (st.slider : ℚ) / 100
    st.start_fade current 0 (some [.pauseSound, .setPosition pos])
  else (st.stop_fade, [])

/-- `stop`: cancel any fade, then stop the sound synchronously (the
backend stop halts audio and resets position). -/
def SoundPlayer.stop (st : SoundPlayer) : SoundPlayer × List PAction :=
  if st.hasSound ∧ st.hasService then (st.stop_fade, [.stopSound])
  else (st.stop_fade, [])

/-- `_start_playback`: for a stream sound, resolve the URL first
(`resolved` is the outcome of that call; an exception aborts the play
silently).  Then cancel any fade; for loop mode, zero the volume, start
the backend playback and fade in from 0 to the slider gain; otherwise
start the backend playback and set the volume directly to the slider
gain.  Rebinding of `self.sound` to the resolved URL and the title
label update touch no gain or fade bookkeeping and are not tracked. -/
def SoundPlayer.start_playback (st : SoundPlayer)
    (resolved : Option (String × String)) : SoundPlayer × List PAction :=
  if st.hasSound ∧ st.hasService then
    if st.isStream ∧ resolved = none then (st, [])
    else
      let st1 := st.stop_fade
      if st.loopMode then
        let fr := st1.start_fade 0 ((st.slider : ℚ) / 100) none
        (fr.1, [.setVolume 0, .playSound] ++ fr.2)
      else
        (st1, [.playSound, .setVolume ((st.slider : ℚ) / 100)])
  else (st, [])

/-! ## Name resolution in `SoundPlayer.__init__` (widgets.py)

The constructor body contains, among plain attribute assignments,

    self._stream_resolved = stream_resolved

The bare name `stream_resolved` is evaluated against the enclosing
Python scopes: the function's local names (its parameters; no earlier
statement binds a new local), the widgets module's global names (its
imports and top-level definitions), and the builtins.  The lists below
are transcribed from widgets.py. -/

/-- Python exception kinds observed in construction paths. -/
inductive PyError where
  | nameError (n : String)
  | typeError (msg : String)
deriving DecidableEq, Repr

/-- Local names in scope in `SoundPlayer.__init__` when the line
`self._stream_resolved = stream_resolved` runs: the parameters (every
earlier statement only assigns attributes of `self`, never a bare
name). -/
def soundPlayerInitLocals : List String :=
  ["self", "file_path", "loop_mode", "is_folder", "service", "parent",
   "is_stream", "display_name"]

/-- Global names of the widgets module: its imports and its top-level
definitions. -/
def widgetsModuleGlobals : List String :=
  ["os", "csv", "shutil", "Path", "Callable", "List", "Optional",
   "QSize", "Qt", "QTimer", "QColor", "QFont", "QIcon", "QPainter",
   "QPixmap", "QFileDialog", "QFrame", "QHBoxLayout", "QInputDialog",
   "QLabel", "QPushButton", "QScrollArea", "QSlider", "QVBoxLayout",
   "QWidget", "AudioService", "Sound", "SoundFolder", "ICON_DIR",
   "colored_svg", "resolve_youtube", "SoundPlayer", "SoundSection"]

/-- Python builtins referenced anywhere in the widgets module. -/
def pythonBuiltins : List String :=
  ["super", "str", "len", "any", "int", "tuple", "sorted", "reversed",
   "isinstance", "Exception", "ValueError", "enumerate", "range", "open"]

/-- A bare name resolves when some enclosing scope binds it. -/
def nameInScope (locals : List String) (n : String) : Bool :=
  locals.contains n || widgetsModuleGlobals.contains n || pythonBuiltins.contains n

/-- The attributes `SoundPlayer.__init__` would produce if it finished. -/
structure SoundPlayerInit where
  file_path : String
  loop_mode : Bool
  is_folder : Bool
  is_stream : Bool
  filename : String
deriving DecidableEq, Repr

/-- `Path(p).name`: the final path component. -/
def pathName (p : String) : String := ((p.splitOn "/").getLast?).getD p

/-- `Path(p).stem`: the final path component without its extension. -/
def pathStem (p : String) : String :=
  match (pathName p).splitOn "." with
  | [] => pathName p
  | [x] => x
  | parts => String.intercalate "." parts.dropLast

/-- Embedding of `SoundPlayer.__init__` (widgets.py, lines 61-100).  The
attribute assignments preceding the failing line store parameters; the
line `self._stream_resolved = stream_resolved` then evaluates the bare
name `stream_resolved`, raising `NameError` when no scope binds it.
The continuation after that line (reachable only if the name resolved)
computes the display filename per the folder / stream / local-file
branches. -/
def soundPlayerInit (file_path : String) (loop_mode is_folder is_stream : Bool)
    (display_name : Option String) : Except PyError SoundPlayerInit :=
  if nameInScope soundPlayerInitLocals "stream_resolved" then
    if is_folder then
      .ok ⟨file_path, loop_mode, is_folder, is_stream, pathName file_path⟩
    else if is_stream then
      .ok ⟨file_path, loop_mode, is_folder, is_stream, display_name.getD file_path⟩
    else
      .ok ⟨file_path, loop_mode, is_folder, is_stream, pathStem file_path⟩
  else
    .error (.nameError "stream_resolved")

/-! ## Call binding for window construction (windows.py, main.py,
music_board_app.py)

`MusicBoardMainWindow._setup_ui` constructs the three sections with

    SoundSection("🌿 AMBIENT", "ambient", loop_mode=True)

while `SoundSection.__init__(self, title, folder_path, service,
loop_mode=False, parent=None)` requires `service`.  The entry point in
main.py constructs `MusicBoardMainWindow()`; the one in
music_board_app.py constructs `MusicBoardMainWindow(audio_service=...,
repository=...)` against `MusicBoardMainWindow.__init__(self)`.
Python's argument binding for plain positional-or-keyword parameters is
embedded below. -/

/-- A Python function signature: parameter names in order (including
`self`) and the count of trailing parameters that have defaults. -/
structure PySig where
  params : List String
  numDefaults : Nat
deriving Repr

/-- Bind a call with `npos` positional arguments and the given keyword
names against a signature, per Python's rules for
positional-or-keyword parameters: reject excess positional arguments,
duplicate bindings, unknown keywords, and missing required
parameters. -/
def bindCall (sig : PySig) (npos : Nat) (kwnames : List String) : Except PyError Unit :=
  if sig.params.length < npos then
    .error (.typeError "too many positional arguments")
  else if kwnames.any (fun k => (sig.params.take npos).contains k) then
    .error (.typeError "got multiple values for argument")
  else if kwnames.any (fun k => !sig.params.contains k) then
    .error (.typeError "got an unexpected keyword argument")
  else if (sig.params.take (sig.params.length - sig.numDefaults)).all
      (fun p => (sig.params.take npos).contains p || kwnames.contains p) then
    .ok ()
  else
    .error (.typeError "missing a required positional argument")

/-- Signature of `SoundSection.__init__` (widgets.py, lines 326-341). -/
def SoundSectionSig : PySig :=
  ⟨["self", "title", "folder_path", "service", "loop_mode", "parent"], 2⟩

/-- Signature of `MusicBoardMainWindow.__init__` (windows.py). -/
def MusicBoardMainWindowSig : PySig := ⟨["self"], 0⟩

/-- `MusicBoardMainWindow._setup_ui`: the three `SoundSection`
constructions, each called as `SoundSection(title, folder,
loop_mode=...)` — two positional arguments plus the implicit `self`,
and the keyword `loop_mode` (the statements before them bind no
constructor calls that can fail). -/
def musicBoardSetupUi : Except PyError Unit := do
  bindCall SoundSectionSig 3 ["loop_mode"]
  bindCall SoundSectionSig 3 ["loop_mode"]
  bindCall SoundSectionSig 3 ["loop_mode"]
  pure ()

/-- Constructing `MusicBoardMainWindow()` as main.py does: bind the
no-argument call, then run `__init__`, whose body calls
`_setup_ui`. -/
def mainPyWindowBuild : Except PyError Unit := do
  bindCall MusicBoardMainWindowSig 1 []
  musicBoardSetupUi

/-- Constructing `MusicBoardMainWindow(audio_service=...,
repository=...)` as music_board_app.py does: binding fails before the
body runs. -/
def musicBoardAppWindowBuild : Except PyError Unit :=
  bindCall MusicBoardMainWindowSig 1 ["audio_service", "repository"]

/-! ## Concrete states used to instantiate the theorems -/

/-- A loop-mode player 1.5 s into a fade-in from 0 toward 0.7. -/
def pauseDemoPlayer : SoundPlayer :=
  ⟨true, false, 70, true, true, some ⟨0, 7/10, 1500, none⟩⟩

/-- A non-looping (effects) player, steady, slider at 70. -/
def nonLoopPlayer : SoundPlayer := ⟨false, false, 70, true, true, none⟩

/-- A loop-mode player 0.5 s into a fade-in, i.e. playing mid-fade. -/
def loopPlayingPlayer : SoundPlayer :=
  ⟨true, false, 70, true, true, some ⟨0, 7/10, 500, none⟩⟩

/-- A concrete operation sequence on the backend adapter: play a sound,
set its volume to 1/2, set the master volume to 4/5. -/
def demoRepoOps : List RepoOp :=
  [RepoOp.play ⟨"a.mp3", true⟩,
   RepoOp.set_volume ⟨"a.mp3", true⟩ (1/2),
   RepoOp.set_master_volume (4/5)]

/-! ## Theorems -/

/-- Helper: `resolve_youtube` performs exactly one client call, passing
its URL argument through verbatim. -/
theorem resolve_youtube_trace_eq (client : Nat → String → Except String YouTube)
    (url : String) : (resolve_youtube client url).2 = [url] := by
  unfold resolve_youtube
  split
  · rfl
  · split
    · rfl
    · split
      · rfl
      · rfl

/-- C1: `resolve_youtube` does not retry.  Against a client whose first
two calls raise a transient HTTP error and whose third call would
succeed (the repository's own retry-test scenario), the source
propagates the first error after exactly one client call — it neither
returns the successful stream nor invokes the client 3 times.  In
general every invocation makes exactly one client call. -/
theorem resolve_youtube_no_retry_on_transient_error :
    resolve_youtube flakyClient "https://music.youtube.com/watch?v=dummy"
      = (.error (.clientError "HTTP Error 400: Bad Request"),
         ["https://music.youtube.com/watch?v=dummy"])
    ∧ ∀ (client : Nat → String → Except String YouTube) (url : String),
        ((resolve_youtube client url).2).length = 1 :=
  ⟨rfl, fun client url => by rw [resolve_youtube_trace_eq]; rfl⟩

/-- C2: `resolve_youtube` passes its URL argument to the client
verbatim — no normalization of the music-subdomain or short-link forms
to the canonical long form occurs.  The spy client (which raises an
error carrying the URL it received, as in the repository's
normalization tests) observes the raw music-subdomain and short-link
URLs, not `https://www.youtube.com/watch?v=dummy`. -/
theorem resolve_youtube_url_passed_verbatim :
    (∀ (client : Nat → String → Except String YouTube) (url : String),
        (resolve_youtube client url).2 = [url])
    ∧ (resolve_youtube echoClient "https://music.youtube.com/watch?v=dummy").1
        = .error (.clientError "https://music.youtube.com/watch?v=dummy")
    ∧ (resolve_youtube echoClient "https://youtu.be/dummy").1
        = .error (.clientError "https://youtu.be/dummy") :=
  ⟨resolve_youtube_trace_eq, rfl, rfl⟩

/-- C8: `Sound` equality and hashing depend only on the string form of
the source reference, never on the loop flag, so two `Sound` values
with the same path and different loop flags are the same key in any
session map. -/
theorem sound_eq_hash_ignores_loop (p : String) (l1 l2 : Bool) {α : Type}
    (m : List (Sound × α)) :
    Sound.beq ⟨p, l1⟩ ⟨p, l2⟩ = true
    ∧ Sound.hashKey ⟨p, l1⟩ = Sound.hashKey ⟨p, l2⟩
    ∧ lookupSound m ⟨p, l1⟩ = lookupSound m ⟨p, l2⟩ := by
  refine ⟨by simp [Sound.beq], rfl, ?_⟩
  induction m with
  | nil => rfl
  | cons kv rest ih => simp [lookupSound, Sound.beq, ih]

/-- C9: evaluating `SoundPlayer.__init__` raises
`NameError("stream_resolved")` for every argument combination: the name
`stream_resolved` is bound in no enclosing scope, so no `SoundPlayer`
is ever successfully constructed. -/
theorem soundplayer_init_always_name_error
    (file_path : String) (loop_mode is_folder is_stream : Bool)
    (display_name : Option String) :
    soundPlayerInit file_path loop_mode is_folder is_stream display_name
      = .error (.nameError "stream_resolved") := by
  have h : nameInScope soundPlayerInitLocals "stream_resolved" = false := by decide
  simp [soundPlayerInit, h]

/-- C10: constructing the main window raises `TypeError` on every
invocation: the no-argument construction of main.py reaches
`_setup_ui`, whose `SoundSection(title, folder, loop_mode=...)` call
lacks the required positional `service` argument, and the keyword
construction of music_board_app.py fails binding with unexpected
keywords — so neither entry point ever builds the window. -/
theorem main_window_construction_type_error :
    mainPyWindowBuild = .error (.typeError "missing a required positional argument")
    ∧ musicBoardAppWindowBuild
        = .error (.typeError "got an unexpected keyword argument")
    ∧ musicBoardSetupUi
        = .error (.typeError "missing a required positional argument") :=
  ⟨rfl, rfl, rfl⟩

/-- C4: a pause request arriving while a fade is in progress cancels
the fade (its completion callback never runs — the request's only
service call is the volume write) and starts the new fade-out from the
cancelled fade's current interpolated value
`fade_start + (fade_end - fade_start) * min(elapsed/3000, 1)`,
with target 0 and the pause/seek work deferred to the new callback. -/
theorem pause_mid_fade_starts_from_interpolated_value
    (st : SoundPlayer) (f : FadeState) (pos : Int)
    (hsound : st.hasSound = true) (hsvc : st.hasService = true)
    (hfade : st.fade = some f) :
    st.pause pos =
      ({ st with fade := some ⟨f.currentValue, 0, 0,
            some [.pauseSound, .setPosition pos]⟩ },
       [.setVolume f.currentValue]) := by
  simp [SoundPlayer.pause, SoundPlayer.start_fade, SoundPlayer.stop_fade,
        hsound, hsvc, hfade, FadeState.currentValue]

/-- Witness for C4: the loop player 1.5 s into a fade-in from 0 to 0.7
is paused; the new fade-out starts from the interpolated value 0.35
(not from 0, the slider value 0.7, or the old target 0.7). -/
theorem pause_mid_fade_starts_from_interpolated_value_witness :
    pauseDemoPlayer.pause 42 =
      ({ pauseDemoPlayer with fade := some ⟨7/20, 0, 0,
            some [.pauseSound, .setPosition 42]⟩ },
       [.setVolume (7/20)]) := by
  have h := pause_mid_fade_starts_from_interpolated_value pauseDemoPlayer
      ⟨0, 7/10, 1500, none⟩ 42 rfl rfl rfl
  have hv : FadeState.currentValue ⟨0, 7/10, 1500, none⟩ = 7/20 := by
    norm_num [FadeState.currentValue]
  rw [h, hv]

/-- C5 counterexample: on the non-looping player, a pause request does
not take effect immediately — the backend pause call is absent from the
request's synchronous service calls, and a fade (from the slider value
0.7 down to 0) is installed instead, carrying the backend pause in its
completion callback. -/
theorem nonloop_pause_not_immediate_cex :
    PAction.pauseSound ∉ (nonLoopPlayer.pause 0).2
    ∧ (nonLoopPlayer.pause 0).1.fade =
        some ⟨7/10, 0, 0, some [.pauseSound, .setPosition 0]⟩ := by
  constructor
  · norm_num [nonLoopPlayer, SoundPlayer.pause, SoundPlayer.start_fade,
      SoundPlayer.stop_fade]
    decide
  · norm_num [nonLoopPlayer, SoundPlayer.pause, SoundPlayer.start_fade,
      SoundPlayer.stop_fade]

/-- C5 amended: for a non-looping player, play sets the volume directly
to the slider target (no ramp) and stop applies the backend stop
synchronously, but a pause request starts a 3-second fade-out from the
slider value and defers the backend pause and position restore to the
fade's completion callback. -/
theorem nonloop_play_stop_immediate_pause_fades
    (slider : Nat) (pos : Int) (f : Option FadeState) :
    (SoundPlayer.start_playback ⟨false, false, slider, true, true, f⟩ none
      = (⟨false, false, slider, true, true, none⟩,
         [.playSound, .setVolume ((slider : ℚ) / 100)]))
    ∧ (SoundPlayer.stop ⟨false, false, slider, true, true, f⟩
      = (⟨false, false, slider, true, true, none⟩, [.stopSound]))
    ∧ (SoundPlayer.pause ⟨false, false, slider, true, true, none⟩ pos
      = (⟨false, false, slider, true, true,
           some ⟨(slider : ℚ) / 100, 0, 0, some [.pauseSound, .setPosition pos]⟩⟩,
         [.setVolume ((slider : ℚ) / 100)])) := by
  refine ⟨?_, ?_, ?_⟩ <;>
    simp [SoundPlayer.start_playback, SoundPlayer.stop, SoundPlayer.pause,
      SoundPlayer.start_fade, SoundPlayer.stop_fade]

/-- C6 counterexample: on a loop-mode player that is playing (mid
fade-in), a stop request applies the backend stop in its synchronous
service calls and installs no fade — the Playing→Stopped transition
does not fade the gain out first. -/
theorem loop_stop_immediate_cex :
    (loopPlayingPlayer.stop).2 = [PAction.stopSound]
    ∧ (loopPlayingPlayer.stop).1.fade = none :=
  ⟨rfl, rfl⟩

/-- C6 amended: a stop request on any player (loop mode included)
cancels any fade in progress and applies the full backend stop — which
halts audio and resets the position — synchronously in the request; no
fade-out precedes it. -/
theorem stop_cancels_fade_and_stops_synchronously (st : SoundPlayer) :
    st.stop = ({ st with fade := none },
      if st.hasSound ∧ st.hasService then [PAction.stopSound] else []) := by
  by_cases h : st.hasSound ∧ st.hasService <;>
    simp [SoundPlayer.stop, SoundPlayer.stop_fade, h]

/-- Helper: the preferred-type query filter selects exactly the
audio-only `audio/mp4` streams. -/
theorem filterStreams_preferred_eq (ss : List Stream) :
    filterStreams ss true (some "audio/mp4") = ss.filter isPreferredStream := rfl

/-- Helper: the fallback query filter selects exactly the audio-only
streams. -/
theorem filterStreams_audioOnly_eq (ss : List Stream) :
    filterStreams ss true none = ss.filter isAudioOnlyStream := by
  unfold filterStreams
  exact List.filter_congr fun s _ => by simp [isAudioOnlyStream]

/-- Helper: `filter` + stable ascending sort by bitrate + reverse +
head yields a matching stream of maximal bitrate whenever a matching
stream exists. -/
theorem select_max_spec (p : Stream → Bool) (ss : List Stream)
    (h : ∃ s ∈ ss, p s = true) :
    ∃ t, firstStream (descStreams (order_by_abr (ss.filter p))) = some t ∧
      t ∈ ss ∧ p t = true ∧ ∀ s ∈ ss, p s = true → s.abr ≤ t.abr := by
  obtain ⟨s0, hs0, hps0⟩ := h
  have hne : ss.filter p ≠ [] := by
    intro hnil
    have hmem : s0 ∈ ss.filter p := List.mem_filter.mpr ⟨hs0, hps0⟩
    rw [hnil] at hmem
    exact absurd hmem (List.not_mem_nil s0)
  have hsorted : List.Sorted abrLE (List.insertionSort abrLE (ss.filter p)) :=
    List.sorted_insertionSort abrLE (ss.filter p)
  have hrev : List.Sorted (flip abrLE) (List.insertionSort abrLE (ss.filter p)).reverse :=
    List.pairwise_reverse.mpr hsorted
  cases hrevcase : (List.insertionSort abrLE (ss.filter p)).reverse with
  | nil =>
    exfalso
    have hnil : List.insertionSort abrLE (ss.filter p) = [] :=
      List.reverse_eq_nil_iff.mp hrevcase
    have hperm := List.perm_insertionSort abrLE (ss.filter p)
    rw [hnil] at hperm
    exact hne (List.Perm.nil_eq hperm).symm
  | cons t ts =>
    have htfil : t ∈ ss.filter p := by
      have hmem : t ∈ (List.insertionSort abrLE (ss.filter p)).reverse := by
        rw [hrevcase]
        exact List.mem_cons_self t ts
      rw [List.mem_reverse] at hmem
      exact (List.mem_insertionSort abrLE).mp hmem
    obtain ⟨htss, htp⟩ := List.mem_filter.mp htfil
    refine ⟨t, ?_, htss, htp, ?_⟩
    · simp [firstStream, descStreams, order_by_abr, hrevcase]
    · intro s hsss hpss
      have hsmem : s ∈ (List.insertionSort abrLE (ss.filter p)).reverse := by
        rw [List.mem_reverse]
        exact (List.mem_insertionSort abrLE).mpr (List.mem_filter.mpr ⟨hsss, hpss⟩)
      rw [hrevcase] at hsmem
      rcases List.mem_cons.mp hsmem with h1 | h2
      · rw [h1]
      · rw [hrevcase] at hrev
        exact List.rel_of_sorted_cons hrev s h2

/-- Helper: the query chain yields nothing when no stream matches the
filter. -/
theorem select_none_of_no_match (p : Stream → Bool) (ss : List Stream)
    (h : ∀ s ∈ ss, p s = false) :
    firstStream (descStreams (order_by_abr (ss.filter p))) = none := by
  have hnil : ss.filter p = [] := by
    rw [List.filter_eq_nil_iff]
    intro a ha
    simp [h a ha]
  rw [hnil]
  rfl

/-- C3: stream selection in `resolve_youtube`.  When at least one
audio-only stream of the preferred container type (`audio/mp4`) exists,
the result is such a stream of maximal bitrate, even if an audio-only
stream of another type has higher bitrate; with no preferred-type
stream but some audio-only stream, the result is an audio-only stream
of maximal bitrate; with no audio-only stream at all, the ValueError
is raised. -/
theorem resolve_youtube_format_preference
    (streams : List Stream) (title url : String) :
    ((∃ s ∈ streams, isPreferredStream s = true) →
      ∃ t ∈ streams, isPreferredStream t = true ∧
        resolveWithStreams streams title url = .ok (t.url, title) ∧
        ∀ s ∈ streams, isPreferredStream s = true → s.abr ≤ t.abr)
    ∧ ((¬ ∃ s ∈ streams, isPreferredStream s = true) →
       (∃ s ∈ streams, isAudioOnlyStream s = true) →
      ∃ t ∈ streams, isAudioOnlyStream t = true ∧
        resolveWithStreams streams title url = .ok (t.url, title) ∧
        ∀ s ∈ streams, isAudioOnlyStream s = true → s.abr ≤ t.abr)
    ∧ ((¬ ∃ s ∈ streams, isAudioOnlyStream s = true) →
      resolveWithStreams streams title url
        = .error (.valueError "No audio stream found")) := by
  refine ⟨?_, ?_, ?_⟩
  · intro h
    obtain ⟨t, ht1, htss, htp, hmax⟩ := select_max_spec isPreferredStream streams h
    refine ⟨t, htss, htp, ?_, hmax⟩
    simp only [resolveWithStreams, resolve_youtube, filterStreams_preferred_eq]
    simp [ht1]
  · intro hnp hsome
    obtain ⟨t, ht1, htss, htp, hmax⟩ := select_max_spec isAudioOnlyStream streams hsome
    have hallP : ∀ s ∈ streams, isPreferredStream s = false := by
      intro s hs
      cases hb : isPreferredStream s
      · rfl
      · exact absurd ⟨s, hs, hb⟩ hnp
    have hpref_none := select_none_of_no_match isPreferredStream streams hallP
    refine ⟨t, htss, htp, ?_, hmax⟩
    simp only [resolveWithStreams, resolve_youtube, filterStreams_preferred_eq,
      filterStreams_audioOnly_eq]
    simp [hpref_none, ht1]
  · intro hna
    have hallA : ∀ s ∈ streams, isAudioOnlyStream s = false := by
      intro s hs
      cases hb : isAudioOnlyStream s
      · rfl
      · exact absurd ⟨s, hs, hb⟩ hna
    have hallP : ∀ s ∈ streams, isPreferredStream s = false := by
      intro s hs
      have ha : s.audioOnly = false := by
        have := hallA s hs
        simpa [isAudioOnlyStream] using this
      simp [isPreferredStream, ha]
    have h1 := select_none_of_no_match isPreferredStream streams hallP
    have h2 := select_none_of_no_match isAudioOnlyStream streams hallA
    simp only [resolveWithStreams, resolve_youtube, filterStreams_preferred_eq,
      filterStreams_audioOnly_eq]
    simp [h1, h2]

/-- Witness for C3: on the two streams of the repository's
format-preference test — `audio/webm` at bitrate 160 and `audio/mp4` at
bitrate 128 — resolution returns the `audio/mp4` stream despite its
lower bitrate. -/
theorem resolve_youtube_format_preference_witness :
    resolveWithStreams demoStreams "dummy" "http://example.com"
      = .ok ("mp4_url", "dummy") := by
  obtain ⟨t, htss, htp, heq, hmax⟩ :=
    (resolve_youtube_format_preference demoStreams "dummy" "http://example.com").1
      ⟨⟨"mp4_url", "audio/mp4", true, 128⟩, by decide, by decide⟩
  have ht : t = ⟨"mp4_url", "audio/mp4", true, 128⟩ := by
    have hcases : t = (⟨"webm_url", "audio/webm", true, 160⟩ : Stream)
        ∨ t = (⟨"mp4_url", "audio/mp4", true, 128⟩ : Stream) := by
      simpa [demoStreams] using htss
    rcases hcases with h | h
    · rw [h] at htp
      exact absurd htp (by decide)
    · exact h
  rw [ht] at heq
  exact heq

/-- Helper: a value found by `lookupQ` is an entry of the map. -/
theorem lookupQ_mem (m : List (String × ℚ)) (k : String) (v : ℚ)
    (h : lookupQ m k = some v) : (k, v) ∈ m := by
  induction m with
  | nil => exact absurd h (by simp [lookupQ])
  | cons kv rest ih =>
    rcases kv with ⟨k', v'⟩
    by_cases hk : k' = k
    · have hsome : some v' = some v := by rw [← h]; simp [lookupQ, hk]
      have hv : v' = v := Option.some.inj hsome
      subst hk
      subst hv
      exact List.mem_cons_self _ _
    · have h' : lookupQ rest k = some v := by rw [← h]; simp [lookupQ, hk]
      exact List.mem_cons_of_mem _ (ih h')

/-- Helper: lookup skips a head entry with a different key. -/
theorem lookupQ_cons_ne (m : List (String × ℚ)) (k k' : String) (v : ℚ)
    (h : k ≠ k') : lookupQ ((k, v) :: m) k' = lookupQ m k' := by
  simp [lookupQ, h]

/-- Helper: `_apply_volume` leaves the session list unchanged. -/
theorem apply_volume_players (st : QtSoundRepository) (s : String) :
    (st.apply_volume s).players = st.players := by
  unfold QtSoundRepository.apply_volume
  split <;> rfl

/-- Helper: `_apply_volume` leaves the volume map unchanged. -/
theorem apply_volume_volumes (st : QtSoundRepository) (s : String) :
    (st.apply_volume s).volumes = st.volumes := by
  unfold QtSoundRepository.apply_volume
  split <;> rfl

/-- Helper: `_apply_volume` leaves the master volume unchanged. -/
theorem apply_volume_master (st : QtSoundRepository) (s : String) :
    (st.apply_volume s).master_volume = st.master_volume := by
  unfold QtSoundRepository.apply_volume
  split <;> rfl

/-- Helper: `_apply_volume` leaves every per-sound volume unchanged. -/
theorem apply_volume_volumeOf (st : QtSoundRepository) (s k : String) :
    (st.apply_volume s).volumeOf k = st.volumeOf k := by
  unfold QtSoundRepository.volumeOf
  rw [apply_volume_volumes]

/-- Helper: `_apply_volume` on a live session records the product of
per-sound and master volume as that session's output gain. -/
theorem apply_volume_lookup_mem (st : QtSoundRepository) (s : String)
    (h : s ∈ st.players) :
    lookupQ (st.apply_volume s).outputs s
      = some (st.volumeOf s * st.master_volume) := by
  unfold QtSoundRepository.apply_volume
  rw [if_pos h]
  simp [lookupQ]

/-- Helper: `_apply_volume` leaves other sessions' output gains
unchanged. -/
theorem apply_volume_lookup_other (st : QtSoundRepository) (s k : String)
    (h : k ≠ s) :
    lookupQ (st.apply_volume s).outputs k = lookupQ st.outputs k := by
  unfold QtSoundRepository.apply_volume
  by_cases h2 : s ∈ st.players
  · rw [if_pos h2]
    exact lookupQ_cons_ne _ _ _ _ (Ne.symm h)
  · rw [if_neg h2]

/-- Helper: `_ensure_player` makes the identity live. -/
theorem ensure_player_mem (st : QtSoundRepository) (a : String) :
    a ∈ (st.ensure_player a).players := by
  unfold QtSoundRepository.ensure_player
  split
  · assumption
  · exact List.mem_cons_self _ _

/-- Helper: `_ensure_player` keeps every live identity live. -/
theorem ensure_player_mem_of_mem (st : QtSoundRepository) (a k : String)
    (hk : k ∈ st.players) : k ∈ (st.ensure_player a).players := by
  unfold QtSoundRepository.ensure_player
  split
  · exact hk
  · exact List.mem_cons_of_mem _ hk

/-- Helper: an identity live after `_ensure_player` is the new one or
was live before. -/
theorem ensure_player_mem_cases (st : QtSoundRepository) (a k : String)
    (hk : k ∈ (st.ensure_player a).players) : k = a ∨ k ∈ st.players := by
  revert hk
  unfold QtSoundRepository.ensure_player
  split
  · exact fun hk => Or.inr hk
  · intro hk
    exact List.mem_cons.mp hk

/-- Helper: `_ensure_player` leaves the output map unchanged. -/
theorem ensure_player_outputs (st : QtSoundRepository) (a : String) :
    (st.ensure_player a).outputs = st.outputs := by
  unfold QtSoundRepository.ensure_player
  split <;> rfl

/-- Helper: `_ensure_player` leaves the master volume unchanged. -/
theorem ensure_player_master (st : QtSoundRepository) (a : String) :
    (st.ensure_player a).master_volume = st.master_volume := by
  unfold QtSoundRepository.ensure_player
  split <;> rfl

/-- Helper: `_ensure_player` leaves every per-sound volume unchanged
(`setdefault` writes the value lookups already defaulted to). -/
theorem ensure_player_volumeOf (st : QtSoundRepository) (a k : String) :
    (st.ensure_player a).volumeOf k = st.volumeOf k := by
  unfold QtSoundRepository.ensure_player QtSoundRepository.volumeOf
  split
  · rfl
  · cases hl : lookupQ st.volumes a with
    | none =>
      simp only [hl]
      by_cases hak : a = k
      · subst hak
        simp [lookupQ, hl]
      · simp [lookupQ, hak]
    | some v => simp only [hl]

/-- Helper: `_ensure_player` preserves boundedness of the recorded
volumes (the default entry is 1). -/
theorem ensure_player_vols_bounded (st : QtSoundRepository) (a : String)
    (h : VolsBounded st) : VolsBounded (st.ensure_player a) := by
  unfold QtSoundRepository.ensure_player
  split
  · exact h
  · refine ⟨?_, h.2⟩
    cases hl : lookupQ st.volumes a with
    | none =>
      simp only [hl]
      intro kv hkv
      rcases List.mem_cons.mp hkv with he | hm
      · rw [he]
        norm_num
      · exact h.1 kv hm
    | some v =>
      simp only [hl]
      exact h.1

/-- Helper: fields preserved by `applyAll`. -/
theorem applyAll_players : ∀ (ss : List String) (st : QtSoundRepository),
    (st.applyAll ss).players = st.players
  | [], _ => rfl
  | s :: rest, st => by
    have h : st.applyAll (s :: rest) = (st.apply_volume s).applyAll rest := rfl
    rw [h, applyAll_players rest, apply_volume_players]

/-- Helper: `applyAll` leaves the volume map unchanged. -/
theorem applyAll_volumes : ∀ (ss : List String) (st : QtSoundRepository),
    (st.applyAll ss).volumes = st.volumes
  | [], _ => rfl
  | s :: rest, st => by
    have h : st.applyAll (s :: rest) = (st.apply_volume s).applyAll rest := rfl
    rw [h, applyAll_volumes rest, apply_volume_volumes]

/-- Helper: `applyAll` leaves the master volume unchanged. -/
theorem applyAll_master : ∀ (ss : List String) (st : QtSoundRepository),
    (st.applyAll ss).master_volume = st.master_volume
  | [], _ => rfl
  | s :: rest, st => by
    have h : st.applyAll (s :: rest) = (st.apply_volume s).applyAll rest := rfl
    rw [h, applyAll_master rest, apply_volume_master]

/-- Helper: `applyAll` leaves every per-sound volume unchanged. -/
theorem applyAll_volumeOf (ss : List String) (st : QtSoundRepository) (k : String) :
    (st.applyAll ss).volumeOf k = st.volumeOf k := by
  unfold QtSoundRepository.volumeOf
  rw [applyAll_volumes]

/-- Helper: `applyAll` leaves the output gain of identities outside the
list unchanged. -/
theorem applyAll_lookup_not_mem : ∀ (ss : List String) (st : QtSoundRepository)
    (k : String), k ∉ ss →
    lookupQ (st.applyAll ss).outputs k = lookupQ st.outputs k
  | [], _, _, _ => rfl
  | s :: rest, st, k, hk => by
    have hks : k ≠ s := fun he => hk (he ▸ List.mem_cons_self s rest)
    have hkrest : k ∉ rest := fun hm => hk (List.mem_cons_of_mem s hm)
    have h : st.applyAll (s :: rest) = (st.apply_volume s).applyAll rest := rfl
    rw [h, applyAll_lookup_not_mem rest _ k hkrest,
      apply_volume_lookup_other st s k hks]

/-- Helper: after `applyAll` over a list containing a live identity,
that identity's output gain is the product of its per-sound volume and
the master volume. -/
theorem applyAll_lookup_mem : ∀ (ss : List String) (st : QtSoundRepository)
    (k : String), k ∈ ss → k ∈ st.players →
    lookupQ (st.applyAll ss).outputs k
      = some (st.volumeOf k * st.master_volume)
  | [], _, k, hk, _ => absurd hk (List.not_mem_nil k)
  | s :: rest, st, k, hk, hp => by
    have h : st.applyAll (s :: rest) = (st.apply_volume s).applyAll rest := rfl
    rw [h]
    by_cases hmem : k ∈ rest
    · rw [applyAll_lookup_mem rest (st.apply_volume s) k hmem
        (by rw [apply_volume_players]; exact hp)]
      rw [apply_volume_volumeOf, apply_volume_master]
    · have hks : k = s := (List.mem_cons.mp hk).resolve_right fun hm => hmem hm
      subst hks
      rw [applyAll_lookup_not_mem rest _ k hmem]
      exact apply_volume_lookup_mem st k hp

/-- Helper: each adapter operation with bounded gain arguments
preserves the gain invariant and the volume bounds. -/
theorem step_preserves (st : QtSoundRepository) (op : RepoOp)
    (hInv : GainInvariant st) (hVB : VolsBounded st) (hb : op.bounded) :
    GainInvariant (RepoOp.step st op) ∧ VolsBounded (RepoOp.step st op) := by
  cases op with
  | play snd =>
    simp only [RepoOp.step, QtSoundRepository.play]
    constructor
    · intro k hk
      rw [apply_volume_players] at hk
      by_cases hka : k = snd.path
      · subst hka
        rw [apply_volume_lookup_mem _ _ hk, apply_volume_volumeOf,
          apply_volume_master]
      · rw [apply_volume_lookup_other _ _ _ hka, apply_volume_volumeOf,
          apply_volume_master, ensure_player_outputs, ensure_player_volumeOf,
          ensure_player_master]
        apply hInv
        rcases ensure_player_mem_cases st snd.path k hk with h | h
        · exact absurd h hka
        · exact h
    · have h1 := ensure_player_vols_bounded st snd.path hVB
      refine ⟨?_, ?_, ?_⟩
      · rw [apply_volume_volumes]
        exact h1.1
      · rw [apply_volume_master]
        exact h1.2.1
      · rw [apply_volume_master]
        exact h1.2.2
  | set_volume snd v =>
    simp only [RepoOp.step, QtSoundRepository.set_volume]
    constructor
    · intro k hk
      rw [apply_volume_players] at hk
      by_cases hka : k = snd.path
      · subst hka
        rw [apply_volume_lookup_mem _ _ hk, apply_volume_volumeOf,
          apply_volume_master]
      · rw [apply_volume_lookup_other _ _ _ hka, apply_volume_volumeOf,
          apply_volume_master]
        have hvol : QtSoundRepository.volumeOf
            { st with volumes := (snd.path, v) :: st.volumes } k
            = st.volumeOf k := by
          unfold QtSoundRepository.volumeOf
          rw [lookupQ_cons_ne _ _ _ _ (Ne.symm hka)]
        rw [hvol]
        exact hInv k hk
    · refine ⟨?_, ?_, ?_⟩
      · rw [apply_volume_volumes]
        intro kv hkv
        rcases List.mem_cons.mp hkv with he | hm
        · rw [he]
          exact hb
        · exact hVB.1 kv hm
      · rw [apply_volume_master]
        exact hVB.2.1
      · rw [apply_volume_master]
        exact hVB.2.2
  | set_master_volume v =>
    simp only [RepoOp.step, QtSoundRepository.set_master_volume]
    constructor
    · intro k hk
      rw [applyAll_players] at hk
      rw [applyAll_lookup_mem _ _ k hk hk, applyAll_volumeOf, applyAll_master]
    · refine ⟨?_, ?_, ?_⟩
      · rw [applyAll_volumes]
        exact hVB.1
      · rw [applyAll_master]
        exact hb.1
      · rw [applyAll_master]
        exact hb.2

/-- Helper: the invariants hold after any bounded operation sequence
from any state satisfying them. -/
theorem runRepoAux : ∀ (ops : List RepoOp) (st : QtSoundRepository),
    GainInvariant st → VolsBounded st → (∀ op ∈ ops, op.bounded) →
    GainInvariant (ops.foldl RepoOp.step st)
      ∧ VolsBounded (ops.foldl RepoOp.step st)
  | [], _, hI, hV, _ => ⟨hI, hV⟩
  | op :: rest, st, hI, hV, hb => by
    have hstep := step_preserves st op hI hV (hb op (List.mem_cons_self op rest))
    exact runRepoAux rest (RepoOp.step st op) hstep.1 hstep.2
      fun o ho => hb o (List.mem_cons_of_mem op ho)

/-- Helper: with bounded recorded volumes, every per-sound volume
(including the default 1) lies in the unit interval. -/
theorem volumeOf_bounded (st : QtSoundRepository) (h : VolsBounded st)
    (k : String) : 0 ≤ st.volumeOf k ∧ st.volumeOf k ≤ 1 := by
  unfold QtSoundRepository.volumeOf
  cases hl : lookupQ st.volumes k with
  | none => norm_num
  | some v =>
    have hm := h.1 (k, v) (lookupQ_mem st.volumes k v hl)
    simpa using hm

/-- C7: after any sequence of play / set_volume / set_master_volume
operations, the output gain applied to every live session equals that
sound's per-sound gain times the master gain, and lies in `[0, 1]` when
all gain arguments do; set_master_volume re-applies this product to all
live sessions. -/
theorem qt_repo_effective_gain_invariant (ops : List RepoOp)
    (hb : ∀ op ∈ ops, op.bounded) :
    GainInvariant (runRepo ops) ∧
    ∀ s ∈ (runRepo ops).players, ∃ g,
      lookupQ (runRepo ops).outputs s = some g ∧
      g = (runRepo ops).volumeOf s * (runRepo ops).master_volume ∧
      0 ≤ g ∧ g ≤ 1 := by
  have hinit_inv : GainInvariant QtSoundRepository.init := by
    intro k hk
    exact absurd hk (List.not_mem_nil k)
  have hinit_vb : VolsBounded QtSoundRepository.init := by
    refine ⟨?_, by norm_num [QtSoundRepository.init], by norm_num [QtSoundRepository.init]⟩
    intro kv hkv
    exact absurd hkv (List.not_mem_nil kv)
  obtain ⟨hI, hV⟩ := runRepoAux ops QtSoundRepository.init hinit_inv hinit_vb hb
  refine ⟨hI, ?_⟩
  intro s hs
  refine ⟨(runRepo ops).volumeOf s * (runRepo ops).master_volume,
    hI s hs, rfl, ?_, ?_⟩
  · exact mul_nonneg (volumeOf_bounded _ hV s).1 hV.2.1
  · exact mul_le_one₀ (volumeOf_bounded _ hV s).2 hV.2.1 hV.2.2

/-- Witness for C7: the concrete sequence play, set_volume 1/2,
set_master_volume 4/5 is bounded and yields the gain invariant. -/
theorem qt_repo_effective_gain_invariant_witness :
    (∀ op ∈ demoRepoOps, op.bounded) ∧ GainInvariant (runRepo demoRepoOps) := by
  have hb : ∀ op ∈ demoRepoOps, op.bounded := by
    intro op hop
    have hcases : op = RepoOp.play ⟨"a.mp3", true⟩
        ∨ op = RepoOp.set_volume ⟨"a.mp3", true⟩ (1/2)
        ∨ op = RepoOp.set_master_volume (4/5) := by
      simpa [demoRepoOps] using hop
    rcases hcases with h | h | h <;> rw [h] <;> norm_num [RepoOp.bounded]
  exact ⟨hb, (qt_repo_effective_gain_invariant demoRepoOps hb).1⟩

end OpenBoard
